import Mathlib

/-!
Shallow embedding of `packages/protocol/contracts/common/Accounts.sol`:
the delegated-signer authorization registry (account creation, per-role
signer authorization with signature verification, bidirectional
resolution, profile setters) and the invariants of its dual structures
(the `accounts` mapping and the global `authorizedBy` reverse index).

Ethereum addresses are modelled as `Nat`, with `0` playing the role of
`address(0)`, the sentinel the contract uses for "absent" in both
mappings.  Reverting Solidity calls are modelled as `Except`: a failed
call returns an error and, per EVM revert semantics, leaves the state
untouched (`run` returns the old state on failure).
-/

namespace Accounts

/-- Ethereum addresses; `0` is the zero address `address(0)`. -/
abbrev Addr := Nat

/-- The `Signers` struct of `Accounts.sol`: per-role authorized signing
keys; `0` means no key has been authorized for that role. -/
structure Signers where
  voting : Addr
  validating : Addr
  attesting : Addr
  deriving DecidableEq

/-- The `Account` struct of `Accounts.sol`. -/
structure Account where
  exists_ : Bool
  signers : Signers
  walletAddress : Addr
  dataEncryptionKey : List Nat
  metadataURL : String
  deriving DecidableEq

/-- The default value of `mapping(address => Account)` entries. -/
def emptyAccount : Account :=
  { exists_ := false
    signers := { voting := 0, validating := 0, attesting := 0 }
    walletAddress := 0
    dataEncryptionKey := []
    metadataURL := "" }

/-- Contract storage: the `accounts` mapping and the global
`authorizedBy` reverse index (delegate address to authorizing account,
`0` meaning unclaimed). -/
structure AccountsState where
  accounts : Addr → Account
  authorizedBy : Addr → Addr

/-- Storage of a freshly deployed contract: both mappings all-default. -/
def initState : AccountsState :=
  { accounts := fun _ => emptyAccount
    authorizedBy := fun _ => 0 }

/-- The three delegated-signer roles (spec §3 `Role`). -/
inductive Role
  | voting
  | validating
  | attesting
  deriving DecidableEq

/-- Read the signer slot of a role. -/
def Signers.get : Signers → Role → Addr
  | sg, .voting => sg.voting
  | sg, .validating => sg.validating
  | sg, .attesting => sg.attesting

/-- Write the signer slot of a role. -/
def Signers.set : Signers → Role → Addr → Signers
  | sg, .voting, a => { sg with voting := a }
  | sg, .validating, a => { sg with validating := a }
  | sg, .attesting, a => { sg with attesting := a }

/-- `isAccount` from the source. -/
def isAccount (s : AccountsState) (a : Addr) : Bool :=
  (s.accounts a).exists_

/-- `isNotAccount` from the source. -/
def isNotAccount (s : AccountsState) (a : Addr) : Bool :=
  !(s.accounts a).exists_

/-- `isAuthorized` from the source. -/
def isAuthorized (s : AccountsState) (a : Addr) : Bool :=
  s.authorizedBy a != 0

/-- `isNotAuthorized` from the source. -/
def isNotAuthorized (s : AccountsState) (a : Addr) : Bool :=
  s.authorizedBy a == 0

/-- Error taxonomy.  The contract reverts through bare `require`s; the
names follow the spec's §7 taxonomy, assigned to the `require`
conditions in the order the Solidity `&&`-chains evaluate them.  The
data-encryption-key length `require` carries its own revert string in
the source and gets its own constructor. -/
inductive AuthError
  | alreadyIdentity
  | alreadyDelegate
  | unknownIdentity
  | candidateIsIdentity
  | candidateAlreadyClaimed
  | invalidSignature
  | staleAuthorization
  | invalidDataEncryptionKey
  deriving DecidableEq

/-- Modelled from the spec: `Signatures.getSignerOfAddress` (imported
from `../common/Signatures.sol`, which is not among the sources) is
abstracted, per the spec's §9 design note, as a pluggable capability
`verify(message, signature) -> Option<Address>`, here instantiated with
a test double in which a signature records the address it signs over and
the address of the key that produced it.  A proof is "a signature,
produced by the private key corresponding to `candidate`" (§4.2); no
private key corresponds to the zero address, so recovery never yields
it. -/
structure Sig where
  message : Addr
  signer : Addr
  deriving DecidableEq

/-- Modelled from the spec: signer recovery for the test-double
signature scheme (see `Sig`). -/
def recoverSigner (message : Addr) (sig : Sig) : Option Addr :=
  if sig.message = message && sig.signer != 0 then some sig.signer else none

/-- `createAccount()`; `sender` is `msg.sender`.  The source's
`require(isNotAccount(msg.sender) && isNotAuthorized(msg.sender))`
is split, in evaluation order, into the spec's `AlreadyIdentity` and
`AlreadyDelegate` failures. -/
def createAccount (s : AccountsState) (sender : Addr) :
    Except AuthError AccountsState :=
  if isAccount s sender then .error .alreadyIdentity
  else if isAuthorized s sender then .error .alreadyDelegate
  else .ok { s with accounts := fun a =>
      if a = sender then { s.accounts sender with exists_ := true }
      else s.accounts a }

/-- The private `authorize(current, previous, v, r, s)` helper: checks
`require(isAccount(msg.sender) && isNotAccount(current) &&
isNotAuthorized(current))` (split in evaluation order into the spec's
`UnknownIdentity`, `CandidateIsIdentity`, `CandidateAlreadyClaimed`),
verifies the recovered signer equals `current` (`InvalidSignature`),
then sets `authorizedBy[previous] = address(0)` followed by
`authorizedBy[current] = msg.sender`.  It does not touch the `accounts`
mapping; the entry points update the role slot afterwards. -/
def authorize (s : AccountsState) (sender current previous : Addr)
    (sig : Sig) : Except AuthError AccountsState :=
  if isNotAccount s sender then .error .unknownIdentity
  else if isAccount s current then .error .candidateIsIdentity
  else if isAuthorized s current then .error .candidateAlreadyClaimed
  else
    match recoverSigner sender sig with
    | none => .error .invalidSignature
    | some signer =>
      if signer = current then
        .ok { s with authorizedBy := fun a =>
            if a = current then sender
            else if a = previous then 0
            else s.authorizedBy a }
      else .error .invalidSignature

/-- Common body of the three `authorizeXSigner` entry points: read the
previous slot `accounts[msg.sender].signers.<role>`, call `authorize`,
then write the slot to the new signer.  Each entry point below is this
at a fixed role, exactly as in the source. -/
def authorizeSigner (r : Role) (s : AccountsState) (sender cand : Addr)
    (sig : Sig) : Except AuthError AccountsState :=
  match authorize s sender cand ((s.accounts sender).signers.get r) sig with
  | .error e => .error e
  | .ok t =>
    .ok { t with accounts := fun a =>
        if a = sender then
          { t.accounts sender with
              signers := (t.accounts sender).signers.set r cand }
        else t.accounts a }

/-- `authorizeVoteSigner(voter, v, r, s)`. -/
def authorizeVoteSigner (s : AccountsState) (sender voter : Addr)
    (sig : Sig) : Except AuthError AccountsState :=
  authorizeSigner .voting s sender voter sig

/-- `authorizeValidationSigner(validator, v, r, s)`. -/
def authorizeValidationSigner (s : AccountsState) (sender validator : Addr)
    (sig : Sig) : Except AuthError AccountsState :=
  authorizeSigner .validating s sender validator sig

/-- `authorizeAttestationSigner(attestor, v, r, s)`. -/
def authorizeAttestationSigner (s : AccountsState) (sender attestor : Addr)
    (sig : Sig) : Except AuthError AccountsState :=
  authorizeSigner .attesting s sender attestor sig

/-- Common body of the three `getAccountFromXSigner` resolvers: if
`authorizedBy[x]` is nonzero, `require` that the authorizing account's
slot for the queried role equals `x` (the spec's `StaleAuthorization`
re-verification) and return the authorizing account; otherwise
`require(isAccount(x))` (the spec's `UnknownIdentity`) and return `x`
itself. -/
def getAccountFromSigner (r : Role) (s : AccountsState) (x : Addr) :
    Except AuthError Addr :=
  let authorizingAccount := s.authorizedBy x
  if authorizingAccount != 0 then
    if (s.accounts authorizingAccount).signers.get r = x then
      .ok authorizingAccount
    else .error .staleAuthorization
  else
    if isAccount s x then .ok x else .error .unknownIdentity

/-- `getAccountFromVoteSigner(accountOrVoteSigner)`. -/
def getAccountFromVoteSigner (s : AccountsState) (x : Addr) :
    Except AuthError Addr :=
  getAccountFromSigner .voting s x

/-- `getAccountFromValidationSigner(accountOrValidationSigner)`. -/
def getAccountFromValidationSigner (s : AccountsState) (x : Addr) :
    Except AuthError Addr :=
  getAccountFromSigner .validating s x

/-- `getAccountFromAttestationSigner(accountOrAttestationSigner)`. -/
def getAccountFromAttestationSigner (s : AccountsState) (x : Addr) :
    Except AuthError Addr :=
  getAccountFromSigner .attesting s x

/-- Common body of the three `getXSignerFromAccount` resolvers:
`require(isAccount(account))`, then return the slot, defaulting to the
account itself when the slot is `address(0)` (self-default). -/
def getSignerFromAccount (r : Role) (s : AccountsState) (account : Addr) :
    Except AuthError Addr :=
  if isAccount s account then
    let signer := (s.accounts account).signers.get r
    .ok (if signer = 0 then account else signer)
  else .error .unknownIdentity

/-- `getVoteSignerFromAccount(account)`. -/
def getVoteSignerFromAccount (s : AccountsState) (account : Addr) :
    Except AuthError Addr :=
  getSignerFromAccount .voting s account

/-- `getValidationSignerFromAccount(account)`. -/
def getValidationSignerFromAccount (s : AccountsState) (account : Addr) :
    Except AuthError Addr :=
  getSignerFromAccount .validating s account

/-- `getAttestationSignerFromAccount(account)`. -/
def getAttestationSignerFromAccount (s : AccountsState) (account : Addr) :
    Except AuthError Addr :=
  getSignerFromAccount .attesting s account

/-- `setWalletAddress(walletAddress)`: unconditional write. -/
def setWalletAddress (s : AccountsState) (sender walletAddress : Addr) :
    Except AuthError AccountsState :=
  .ok { s with accounts := fun a =>
      if a = sender then { s.accounts sender with walletAddress := walletAddress }
      else s.accounts a }

/-- `setAccountDataEncryptionKey(dataEncryptionKey)`:
`require(dataEncryptionKey.length >= 33, "data encryption key length <= 32")`
then an unconditional write. -/
def setAccountDataEncryptionKey (s : AccountsState) (sender : Addr)
    (dataEncryptionKey : List Nat) : Except AuthError AccountsState :=
  if 33 ≤ dataEncryptionKey.length then
    .ok { s with accounts := fun a =>
        if a = sender then
          { s.accounts sender with dataEncryptionKey := dataEncryptionKey }
        else s.accounts a }
  else .error .invalidDataEncryptionKey

/-- `setMetadataURL(metadataURL)`: unconditional write. -/
def setMetadataURL (s : AccountsState) (sender : Addr) (metadataURL : String) :
    Except AuthError AccountsState :=
  .ok { s with accounts := fun a =>
      if a = sender then { s.accounts sender with metadataURL := metadataURL }
      else s.accounts a }

/-- `setAccount(dataEncryptionKey, walletAddress)`: calls
`setAccountDataEncryptionKey` then `setWalletAddress`; a revert in the
first aborts the whole call. -/
def setAccount (s : AccountsState) (sender : Addr) (dataEncryptionKey : List Nat)
    (walletAddress : Addr) : Except AuthError AccountsState :=
  match setAccountDataEncryptionKey s sender dataEncryptionKey with
  | .error e => .error e
  | .ok t => setWalletAddress t sender walletAddress

/-- One external mutating call to the contract, tagged with its
`msg.sender`. -/
inductive Op
  | createAccount (sender : Addr)
  | authorizeVoteSigner (sender voter : Addr) (sig : Sig)
  | authorizeValidationSigner (sender validator : Addr) (sig : Sig)
  | authorizeAttestationSigner (sender attestor : Addr) (sig : Sig)
  | setWalletAddress (sender walletAddress : Addr)
  | setAccountDataEncryptionKey (sender : Addr) (dataEncryptionKey : List Nat)
  | setMetadataURL (sender : Addr) (metadataURL : String)
  | setAccount (sender : Addr) (dataEncryptionKey : List Nat) (walletAddress : Addr)

/-- The `msg.sender` of a call. -/
def Op.sender : Op → Addr
  | .createAccount a => a
  | .authorizeVoteSigner a _ _ => a
  | .authorizeValidationSigner a _ _ => a
  | .authorizeAttestationSigner a _ _ => a
  | .setWalletAddress a _ => a
  | .setAccountDataEncryptionKey a _ => a
  | .setMetadataURL a _ => a
  | .setAccount a _ _ => a

/-- Dispatch a call to the corresponding contract function. -/
def exec (op : Op) (s : AccountsState) : Except AuthError AccountsState :=
  match op with
  | .createAccount sender => createAccount s sender
  | .authorizeVoteSigner sender voter sig => authorizeVoteSigner s sender voter sig
  | .authorizeValidationSigner sender validator sig =>
      authorizeValidationSigner s sender validator sig
  | .authorizeAttestationSigner sender attestor sig =>
      authorizeAttestationSigner s sender attestor sig
  | .setWalletAddress sender w => setWalletAddress s sender w
  | .setAccountDataEncryptionKey sender k => setAccountDataEncryptionKey s sender k
  | .setMetadataURL sender u => setMetadataURL s sender u
  | .setAccount sender k w => setAccount s sender k w

/-- EVM transaction semantics: a successful call commits the new state,
a revert leaves the state untouched. -/
def run (op : Op) (s : AccountsState) : AccountsState :=
  match exec op s with
  | .ok t => t
  | .error _ => s

/-- The authorization entry point for a role, as an `Op`. -/
def signerOp : Role → Addr → Addr → Sig → Op
  | .voting, sender, cand, sig => .authorizeVoteSigner sender cand sig
  | .validating, sender, cand, sig => .authorizeValidationSigner sender cand sig
  | .attesting, sender, cand, sig => .authorizeAttestationSigner sender cand sig

/-- States reachable from a fresh deployment by successful external
calls.  `op.sender ≠ 0` reflects the EVM guarantee that `msg.sender` is
never the zero address (no transaction or call can originate from it). -/
inductive Reachable : AccountsState → Prop
  | init : Reachable initState
  | step {s s' : AccountsState} (op : Op) : Reachable s → op.sender ≠ 0 →
      exec op s = .ok s' → Reachable s'

/-- Transcription of the function headers of the three authorization
entry points in `Accounts.sol` (lines 112-125, 135-148 and 158-170). -/
inductive EntryPoint
  | voteSigner
  | validationSigner
  | attestationSigner
  deriving DecidableEq

/-- Which of the three authorization entry points carry the
OpenZeppelin `nonReentrant` modifier in their header, transcribed from
the source: `authorizeVoteSigner` and `authorizeValidationSigner` do,
`authorizeAttestationSigner` does not. -/
def hasNonReentrantGuard : EntryPoint → Bool
  | .voteSigner => true
  | .validationSigner => true
  | .attestationSigner => false

/-- Concrete state: address `1` has created an account. -/
def st1 : AccountsState := run (.createAccount 1) initState

/-- Concrete state: on top of `st1`, account `1` has authorized `2` as
its vote signer. -/
def st2 : AccountsState := run (.authorizeVoteSigner 1 2 ⟨1, 2⟩) st1

/-- Concrete state: on top of `st2`, account `1` has re-authorized its
vote signer from `2` to `3`. -/
def st3 : AccountsState := run (.authorizeVoteSigner 1 3 ⟨1, 3⟩) st2

/-- Concrete state: on top of `st1`, account `1` has authorized `2` as
its attestation signer. -/
def stAtt : AccountsState := run (.authorizeAttestationSigner 1 2 ⟨1, 2⟩) st1

theorem Signers.get_set_self (sg : Signers) (r : Role) (a : Addr) :
    (sg.set r a).get r = a := by
  cases r <;> rfl

theorem Signers.get_set_of_ne (sg : Signers) {r r' : Role} (h : r' ≠ r)
    (a : Addr) : (sg.set r a).get r' = sg.get r' := by
  cases r <;> cases r' <;> first
    | rfl
    | exact absurd rfl h

theorem reachable_st1 : Reachable st1 :=
  Reachable.step (.createAccount 1) Reachable.init (by decide) rfl

theorem reachable_st2 : Reachable st2 :=
  Reachable.step (.authorizeVoteSigner 1 2 ⟨1, 2⟩) reachable_st1 (by decide) rfl

theorem reachable_st3 : Reachable st3 :=
  Reachable.step (.authorizeVoteSigner 1 3 ⟨1, 3⟩) reachable_st2 (by decide) rfl

theorem reachable_stAtt : Reachable stAtt :=
  Reachable.step (.authorizeAttestationSigner 1 2 ⟨1, 2⟩) reachable_st1
    (by decide) rfl

theorem createAccount_ok {s t : AccountsState} {sender : Addr}
    (h : createAccount s sender = .ok t) :
    (s.accounts sender).exists_ = false ∧ s.authorizedBy sender = 0 ∧
    t = { s with accounts := fun a =>
        if a = sender then { s.accounts sender with exists_ := true }
        else s.accounts a } := by
  unfold createAccount at h
  split at h
  · simp at h
  next h1 =>
  split at h
  · simp at h
  next h2 =>
  simp only [Except.ok.injEq] at h
  subst h
  simp only [isAccount, Bool.not_eq_true] at h1
  simp only [isAuthorized, bne_iff_ne, ne_eq, not_not] at h2
  exact ⟨h1, h2, rfl⟩

theorem authorize_ok {s t : AccountsState} {sender current previous : Addr}
    {sig : Sig} (h : authorize s sender current previous sig = .ok t) :
    (s.accounts sender).exists_ = true ∧
    (s.accounts current).exists_ = false ∧
    s.authorizedBy current = 0 ∧
    sig.message = sender ∧ sig.signer = current ∧ current ≠ 0 ∧
    t = { s with authorizedBy := fun a =>
        if a = current then sender
        else if a = previous then 0
        else s.authorizedBy a } := by
  unfold authorize at h
  split at h
  · simp at h
  next h1 =>
  split at h
  · simp at h
  next h2 =>
  split at h
  · simp at h
  next h3 =>
  split at h
  · simp at h
  next signer heq =>
  split at h
  case isFalse => simp at h
  next hsig =>
  simp only [Except.ok.injEq] at h
  subst h
  subst hsig
  unfold recoverSigner at heq
  split at heq
  next hc =>
    simp only [Option.some.injEq] at heq
    subst heq
    simp only [Bool.and_eq_true, decide_eq_true_eq, bne_iff_ne, ne_eq] at hc
    simp [isNotAccount] at h1
    simp only [isAccount, Bool.not_eq_true] at h2
    simp only [isAuthorized, bne_iff_ne, ne_eq, not_not] at h3
    exact ⟨h1, h2, h3, hc.1, rfl, hc.2, rfl⟩
  · simp at heq

theorem authorizeSigner_ok {r : Role} {s s' : AccountsState}
    {sender cand : Addr} {sig : Sig}
    (h : authorizeSigner r s sender cand sig = .ok s') :
    (s.accounts sender).exists_ = true ∧
    (s.accounts cand).exists_ = false ∧
    s.authorizedBy cand = 0 ∧
    sig.message = sender ∧ sig.signer = cand ∧ cand ≠ 0 ∧
    s' = { accounts := fun a =>
             if a = sender then
               { s.accounts sender with
                   signers := (s.accounts sender).signers.set r cand }
             else s.accounts a
           authorizedBy := fun a =>
             if a = cand then sender
             else if a = (s.accounts sender).signers.get r then 0
             else s.authorizedBy a } := by
  unfold authorizeSigner at h
  split at h
  next heq => simp at h
  next t heq =>
  obtain ⟨h1, h2, h3, h4, h5, h6, ht⟩ := authorize_ok heq
  subst ht
  simp only [Except.ok.injEq] at h
  subst h
  exact ⟨h1, h2, h3, h4, h5, h6, rfl⟩

/-- The inductive invariant of the dual structures (`accounts` and
`authorizedBy`), covering the spec's §3 invariants 1, 2 and 4 plus the
bookkeeping facts needed to push them through every operation. -/
structure Inv (s : AccountsState) : Prop where
  no_zero_account : (s.accounts 0).exists_ = false
  authorizedBy_zero : s.authorizedBy 0 = 0
  disjoint : ∀ a, (s.accounts a).exists_ = true → s.authorizedBy a = 0
  no_ghost_slots : ∀ a r, (s.accounts a).exists_ = false →
      (s.accounts a).signers.get r = 0
  slot_claimed : ∀ a r, (s.accounts a).exists_ = true →
      (s.accounts a).signers.get r ≠ 0 →
      s.authorizedBy ((s.accounts a).signers.get r) = a
  claimed_slot : ∀ x, s.authorizedBy x ≠ 0 →
      ∃ r, (s.accounts (s.authorizedBy x)).signers.get r = x
  slots_injective : ∀ a r r', (s.accounts a).signers.get r ≠ 0 →
      (s.accounts a).signers.get r = (s.accounts a).signers.get r' → r = r'

theorem inv_initState : Inv initState := by
  refine ⟨rfl, rfl, ?_, ?_, ?_, ?_, ?_⟩
  · intro a ha; exact absurd ha (by simp [initState, emptyAccount])
  · intro a r _; cases r <;> rfl
  · intro a r ha; exact absurd ha (by simp [initState, emptyAccount])
  · intro x hx; exact absurd rfl hx
  · intro a r r' h1; exact absurd (by cases r <;> rfl) h1

theorem Inv.of_pointwise {s s' : AccountsState}
    (hex : ∀ a, (s'.accounts a).exists_ = (s.accounts a).exists_)
    (hsg : ∀ a, (s'.accounts a).signers = (s.accounts a).signers)
    (hab : ∀ a, s'.authorizedBy a = s.authorizedBy a)
    (hi : Inv s) : Inv s' := by
  refine ⟨?_, ?_, ?_, ?_, ?_, ?_, ?_⟩
  · rw [hex]; exact hi.no_zero_account
  · rw [hab]; exact hi.authorizedBy_zero
  · intro a ha; rw [hab]; exact hi.disjoint a ((hex a) ▸ ha)
  · intro a r ha; rw [hsg]; exact hi.no_ghost_slots a r ((hex a) ▸ ha)
  · intro a r ha hne
    rw [hsg] at hne ⊢
    rw [hab]
    exact hi.slot_claimed a r ((hex a) ▸ ha) hne
  · intro x hx
    rw [hab] at hx ⊢
    obtain ⟨r, hr⟩ := hi.claimed_slot x hx
    exact ⟨r, by rw [hsg]; exact hr⟩
  · intro a r r' h1 h2
    rw [hsg] at h1 h2
    exact hi.slots_injective a r r' h1 h2

theorem Inv.createAccount_preserved {s s' : AccountsState} {sender : Addr}
    (hi : Inv s) (hns : sender ≠ 0) (h : createAccount s sender = .ok s') :
    Inv s' := by
  obtain ⟨hexf, hnb, hs'⟩ := createAccount_ok h
  subst hs'
  have hsg : ∀ a, ((if a = sender then { s.accounts sender with exists_ := true }
      else s.accounts a) : Account).signers = (s.accounts a).signers := by
    intro a
    by_cases hx : a = sender
    · subst hx; rw [if_pos rfl]
    · rw [if_neg hx]
  refine ⟨?_, hi.authorizedBy_zero, ?_, ?_, ?_, ?_, ?_⟩
  · simp only
    rw [if_neg (fun hz => hns hz.symm)]
    exact hi.no_zero_account
  · intro a ha
    simp only at ha ⊢
    by_cases hx : a = sender
    · subst hx; exact hnb
    · rw [if_neg hx] at ha; exact hi.disjoint a ha
  · intro a r ha
    simp only at ha ⊢
    rw [hsg a]
    by_cases hx : a = sender
    · subst hx; rw [if_pos rfl] at ha; simp at ha
    · rw [if_neg hx] at ha; exact hi.no_ghost_slots a r ha
  · intro a r ha hne
    simp only at ha hne ⊢
    rw [hsg a] at hne ⊢
    by_cases hx : a = sender
    · rw [hx] at hne
      exact absurd (hi.no_ghost_slots sender r hexf) hne
    · rw [if_neg hx] at ha
      exact hi.slot_claimed a r ha hne
  · intro x hx
    simp only at hx ⊢
    obtain ⟨r, hr⟩ := hi.claimed_slot x hx
    exact ⟨r, by rw [hsg]; exact hr⟩
  · intro a r r' h1 h2
    simp only at h1 h2
    rw [hsg a] at h1 h2
    exact hi.slots_injective a r r' h1 h2

theorem Inv.authorizeSigner_preserved {r : Role} {s s' : AccountsState}
    {sender cand : Addr} {sig : Sig} (hi : Inv s)
    (h : authorizeSigner r s sender cand sig = .ok s') : Inv s' := by
  obtain ⟨hex, hcx, hcb, -, -, hc0, hs'⟩ := authorizeSigner_ok h
  subst hs'
  have hs0 : sender ≠ 0 := by
    intro hz; rw [hz, hi.no_zero_account] at hex; cases hex
  have hprev0 : (s.accounts sender).signers.get r ≠ 0 →
      s.authorizedBy ((s.accounts sender).signers.get r) = sender :=
    fun hp => hi.slot_claimed sender r hex hp
  have hexeq : ∀ a, ((if a = sender then
      { s.accounts sender with
          signers := (s.accounts sender).signers.set r cand }
      else s.accounts a) : Account).exists_ = (s.accounts a).exists_ := by
    intro a
    by_cases hx : a = sender
    · rw [if_pos hx, hx]
    · rw [if_neg hx]
  have hsgeq : ∀ a, a ≠ sender → ((if a = sender then
      { s.accounts sender with
          signers := (s.accounts sender).signers.set r cand }
      else s.accounts a) : Account).signers = (s.accounts a).signers := by
    intro a hx; rw [if_neg hx]
  have hsgs : ((if sender = sender then
      { s.accounts sender with
          signers := (s.accounts sender).signers.set r cand }
      else s.accounts sender) : Account).signers =
      (s.accounts sender).signers.set r cand := by
    rw [if_pos rfl]
  refine ⟨?_, ?_, ?_, ?_, ?_, ?_, ?_⟩
  · simp only
    rw [hexeq 0]
    exact hi.no_zero_account
  · simp only
    rw [if_neg (fun hz => hc0 hz.symm)]
    by_cases hp : (0 : Addr) = (s.accounts sender).signers.get r
    · rw [if_pos hp]
    · rw [if_neg hp]; exact hi.authorizedBy_zero
  · intro a ha
    simp only at ha ⊢
    rw [hexeq a] at ha
    by_cases hac : a = cand
    · rw [hac, hcx] at ha; cases ha
    · rw [if_neg hac]
      by_cases hap : a = (s.accounts sender).signers.get r
      · rw [if_pos hap]
      · rw [if_neg hap]; exact hi.disjoint a ha
  · intro a r' ha
    simp only at ha ⊢
    rw [hexeq a] at ha
    by_cases hx : a = sender
    · rw [hx, hex] at ha; cases ha
    · rw [hsgeq a hx]
      exact hi.no_ghost_slots a r' ha
  · intro a r' ha hne
    simp only at ha hne ⊢
    rw [hexeq a] at ha
    by_cases hx : a = sender
    · subst hx
      rw [hsgs] at hne ⊢
      by_cases hr : r' = r
      · subst hr
        rw [Signers.get_set_self] at hne ⊢
        rw [if_pos rfl]
      · rw [Signers.get_set_of_ne _ hr] at hne ⊢
        have hxc : (s.accounts a).signers.get r' ≠ cand := by
          intro hz
          have := hi.slot_claimed a r' hex hne
          rw [hz, hcb] at this
          exact hs0 this.symm
        have hxp : (s.accounts a).signers.get r' ≠ (s.accounts a).signers.get r := by
          intro hz
          exact hr (hi.slots_injective a r' r hne hz)
        rw [if_neg hxc, if_neg hxp]
        exact hi.slot_claimed a r' hex hne
    · rw [hsgeq a hx] at hne ⊢
      have ha0 : a ≠ 0 := by
        intro hz; rw [hz, hi.no_zero_account] at ha; cases ha
      have hold := hi.slot_claimed a r' ha hne
      have hxc : (s.accounts a).signers.get r' ≠ cand := by
        intro hz; rw [hz, hcb] at hold; exact ha0 hold.symm
      have hxp : (s.accounts a).signers.get r' ≠ (s.accounts sender).signers.get r := by
        intro hz
        by_cases hp : (s.accounts sender).signers.get r = 0
        · exact hne (hz.trans hp)
        · have := hprev0 hp
          rw [← hz, hold] at this
          exact hx this
      rw [if_neg hxc, if_neg hxp]
      exact hold
  · intro x hx
    simp only at hx ⊢
    by_cases hxc : x = cand
    · rw [hxc] at hx ⊢
      rw [if_pos rfl]
      refine ⟨r, ?_⟩
      rw [hsgs, Signers.get_set_self]
    · by_cases hxp : x = (s.accounts sender).signers.get r
      · rw [if_neg hxc, if_pos hxp] at hx
        exact absurd rfl hx
      · rw [if_neg hxc, if_neg hxp] at hx ⊢
        obtain ⟨r'', hr''⟩ := hi.claimed_slot x hx
        by_cases hI : s.authorizedBy x = sender
        · rw [hI] at hr''
          have hrr : r'' ≠ r := by
            intro hz; rw [hz] at hr''; exact hxp hr''.symm
          refine ⟨r'', ?_⟩
          rw [if_pos hI]
          show ((s.accounts sender).signers.set r cand).get r'' = x
          rw [Signers.get_set_of_ne _ hrr]
          exact hr''
        · rw [if_neg hI]
          exact ⟨r'', hr''⟩
  · intro a r1 r2 h1 h2
    simp only at h1 h2
    by_cases hx : a = sender
    · subst hx
      rw [hsgs] at h1 h2
      by_cases hr1 : r1 = r
      · by_cases hr2 : r2 = r
        · rw [hr1, hr2]
        · exfalso
          rw [hr1, Signers.get_set_self, Signers.get_set_of_ne _ hr2] at h2
          have hne2 : (s.accounts a).signers.get r2 ≠ 0 := by
            rw [← h2]; exact hc0
          have := hi.slot_claimed a r2 hex hne2
          rw [← h2, hcb] at this
          exact hs0 this.symm
      · by_cases hr2 : r2 = r
        · exfalso
          rw [hr2, Signers.get_set_self] at h2
          rw [Signers.get_set_of_ne _ hr1] at h1 h2
          have := hi.slot_claimed a r1 hex h1
          rw [h2, hcb] at this
          exact hs0 this.symm
        · rw [Signers.get_set_of_ne _ hr1] at h1 h2
          rw [Signers.get_set_of_ne _ hr2] at h2
          exact hi.slots_injective a r1 r2 h1 h2
    · rw [hsgeq a hx] at h1 h2
      exact hi.slots_injective a r1 r2 h1 h2

theorem Inv.setWalletAddress_preserved {s s' : AccountsState} {sender w : Addr}
    (hi : Inv s) (h : setWalletAddress s sender w = .ok s') : Inv s' := by
  simp only [setWalletAddress, Except.ok.injEq] at h
  subst h
  refine hi.of_pointwise ?_ ?_ ?_
  · intro a
    simp only
    by_cases hx : a = sender
    · rw [if_pos hx, hx]
    · rw [if_neg hx]
  · intro a
    simp only
    by_cases hx : a = sender
    · rw [if_pos hx, hx]
    · rw [if_neg hx]
  · intro a; rfl

theorem Inv.setAccountDataEncryptionKey_preserved {s s' : AccountsState}
    {sender : Addr} {k : List Nat} (hi : Inv s)
    (h : setAccountDataEncryptionKey s sender k = .ok s') : Inv s' := by
  unfold setAccountDataEncryptionKey at h
  split at h
  · simp only [Except.ok.injEq] at h
    subst h
    refine hi.of_pointwise ?_ ?_ ?_
    · intro a
      simp only
      by_cases hx : a = sender
      · rw [if_pos hx, hx]
      · rw [if_neg hx]
    · intro a
      simp only
      by_cases hx : a = sender
      · rw [if_pos hx, hx]
      · rw [if_neg hx]
    · intro a; rfl
  · simp at h

theorem Inv.setMetadataURL_preserved {s s' : AccountsState} {sender : Addr}
    {u : String} (hi : Inv s) (h : setMetadataURL s sender u = .ok s') :
    Inv s' := by
  simp only [setMetadataURL, Except.ok.injEq] at h
  subst h
  refine hi.of_pointwise ?_ ?_ ?_
  · intro a
    simp only
    by_cases hx : a = sender
    · rw [if_pos hx, hx]
    · rw [if_neg hx]
  · intro a
    simp only
    by_cases hx : a = sender
    · rw [if_pos hx, hx]
    · rw [if_neg hx]
  · intro a; rfl

theorem Inv.setAccount_preserved {s s' : AccountsState} {sender w : Addr}
    {k : List Nat} (hi : Inv s) (h : setAccount s sender k w = .ok s') :
    Inv s' := by
  unfold setAccount at h
  split at h
  · simp at h
  next t heq =>
    exact (hi.setAccountDataEncryptionKey_preserved heq).setWalletAddress_preserved h

theorem Inv.preserved {s s' : AccountsState} {op : Op} (hi : Inv s)
    (hns : op.sender ≠ 0) (h : exec op s = .ok s') : Inv s' := by
  cases op with
  | createAccount sender => exact hi.createAccount_preserved hns h
  | authorizeVoteSigner sender voter sig => exact hi.authorizeSigner_preserved h
  | authorizeValidationSigner sender validator sig =>
      exact hi.authorizeSigner_preserved h
  | authorizeAttestationSigner sender attestor sig =>
      exact hi.authorizeSigner_preserved h
  | setWalletAddress sender w => exact hi.setWalletAddress_preserved h
  | setAccountDataEncryptionKey sender k =>
      exact hi.setAccountDataEncryptionKey_preserved h
  | setMetadataURL sender u => exact hi.setMetadataURL_preserved h
  | setAccount sender k w => exact hi.setAccount_preserved h

/-- Every reachable state satisfies the inductive invariant. -/
theorem inv_of_reachable {s : AccountsState} (h : Reachable s) : Inv s := by
  induction h with
  | init => exact inv_initState
  | step op hr hns hx ih => exact ih.preserved hns hx

theorem authorizeSigner_succeeds {r : Role} {s : AccountsState}
    {sender cand : Addr} {sig : Sig}
    (h1 : (s.accounts sender).exists_ = true)
    (h2 : (s.accounts cand).exists_ = false)
    (h3 : s.authorizedBy cand = 0)
    (h4 : recoverSigner sender sig = some cand) :
    ∃ t, authorizeSigner r s sender cand sig = .ok t := by
  cases hE : authorizeSigner r s sender cand sig with
  | ok t => exact ⟨t, rfl⟩
  | error e =>
      simp [authorizeSigner, authorize, isNotAccount, isAccount, isAuthorized,
        h1, h2, h3, h4] at hE

theorem createAccount_succeeds {s : AccountsState} {sender : Addr}
    (h1 : (s.accounts sender).exists_ = false)
    (h2 : s.authorizedBy sender = 0) :
    ∃ t, createAccount s sender = .ok t := by
  cases hE : createAccount s sender with
  | ok t => exact ⟨t, rfl⟩
  | error e =>
      simp [createAccount, isAccount, isAuthorized, h1, h2] at hE

/-- C1: in every state reachable from the empty registry by any
sequence of operations, no address both has an existing account and is
claimed as a delegate (mapped to a nonzero account in `authorizedBy`):
the identity set and the delegate set are disjoint after every step. -/
theorem c1_reachable_disjoint {s : AccountsState} (h : Reachable s) (a : Addr) :
    ¬ ((s.accounts a).exists_ = true ∧ s.authorizedBy a ≠ 0) :=
  fun hc => hc.2 ((inv_of_reachable h).disjoint a hc.1)

theorem c1_reachable_disjoint_witness :
    ¬ ((st2.accounts 2).exists_ = true ∧ st2.authorizedBy 2 ≠ 0) :=
  c1_reachable_disjoint reachable_st2 2

/-- C2 is false as stated: `stAtt` is reachable (account `1` authorized
`2` as its attestation signer), yet the vote-signer resolver applied to
`2` fails its re-verification `require` — the failure the spec names
`StaleAuthorization` — because `authorizedBy` spans all roles while each
resolver re-checks only its own role's slot. -/
theorem c2_stale_counterexample :
    Reachable stAtt ∧
    getAccountFromVoteSigner stAtt 2 = .error .staleAuthorization :=
  ⟨reachable_stAtt, rfl⟩

/-- C2 (amended): in every reachable state, the re-verification in the
delegate-to-identity resolvers fails with `StaleAuthorization` only on a
role mismatch: the queried address is claimed in `authorizedBy`, it is
not the claiming account's signer for the queried role, but it is the
claiming account's signer for some other role.  In particular the
resolver whose role matches the role for which the address is held never
fails with `StaleAuthorization`. -/
theorem c2_stale_only_on_role_mismatch {s : AccountsState} (h : Reachable s)
    {r : Role} {x : Addr}
    (hst : getAccountFromSigner r s x = .error .staleAuthorization) :
    s.authorizedBy x ≠ 0 ∧
    (s.accounts (s.authorizedBy x)).signers.get r ≠ x ∧
    ∃ r', r' ≠ r ∧ (s.accounts (s.authorizedBy x)).signers.get r' = x := by
  simp only [getAccountFromSigner] at hst
  split at hst
  next hnz =>
    split at hst
    next heqs => simp at hst
    next hmis =>
      have hnz' : s.authorizedBy x ≠ 0 := by simpa using hnz
      refine ⟨hnz', hmis, ?_⟩
      obtain ⟨r', hr'⟩ := (inv_of_reachable h).claimed_slot x hnz'
      refine ⟨r', ?_, hr'⟩
      intro hz; rw [hz] at hr'; exact hmis hr'
  next hz =>
    split at hst <;> simp at hst

theorem c2_stale_only_on_role_mismatch_witness :
    stAtt.authorizedBy 2 ≠ 0 ∧
    (stAtt.accounts (stAtt.authorizedBy 2)).signers.get .voting ≠ 2 ∧
    ∃ r', r' ≠ Role.voting ∧
      (stAtt.accounts (stAtt.authorizedBy 2)).signers.get r' = 2 :=
  c2_stale_only_on_role_mismatch reachable_stAtt rfl

/-- C3: if, from a reachable state, an authorization entry point for
role `r` succeeds for caller `sender` and candidate `cand`, then in the
new state the delegate-to-identity resolver for `r` maps `cand` to
`sender`, and the identity-to-delegate resolver for `r` maps `sender` to
`cand` (round-trip). -/
theorem c3_authorize_round_trip {s s' : AccountsState} (h : Reachable s)
    {r : Role} {sender cand : Addr} {sig : Sig}
    (hok : authorizeSigner r s sender cand sig = .ok s') :
    getAccountFromSigner r s' cand = .ok sender ∧
    getSignerFromAccount r s' sender = .ok cand := by
  obtain ⟨hex, hcx, hcb, -, -, hc0, hs'⟩ := authorizeSigner_ok hok
  have hs0 : sender ≠ 0 := by
    intro hz; rw [hz, (inv_of_reachable h).no_zero_account] at hex; cases hex
  have habc : s'.authorizedBy cand = sender := by
    rw [hs']; simp
  have hslot : (s'.accounts sender).signers.get r = cand := by
    rw [hs']; simp [Signers.get_set_self]
  have hexs : (s'.accounts sender).exists_ = true := by
    rw [hs']; simp [hex]
  constructor
  · simp [getAccountFromSigner, habc, hslot, hs0]
  · simp [getSignerFromAccount, isAccount, hexs, hslot, hc0]

theorem c3_authorize_round_trip_witness :
    getAccountFromSigner .voting st2 2 = .ok 1 ∧
    getSignerFromAccount .voting st2 1 = .ok 2 :=
  @c3_authorize_round_trip st1 st2 reachable_st1 Role.voting 1 2 ⟨1, 2⟩ rfl

/-- C4: in every reachable state in which `cand` is already claimed in
`authorizedBy`, any attempt by any account (in particular a different
account, or the same account for a different role) to authorize `cand`
as a signer for any role fails with `CandidateAlreadyClaimed`, and the
failed call leaves the registry state unchanged. -/
theorem c4_claimed_candidate_rejected {s : AccountsState} (h : Reachable s)
    {caller cand : Addr} (hacct : isAccount s caller = true)
    (hcl : s.authorizedBy cand ≠ 0) (r : Role) (sig : Sig) :
    exec (signerOp r caller cand sig) s = .error .candidateAlreadyClaimed ∧
    run (signerOp r caller cand sig) s = s := by
  have hdispatch : exec (signerOp r caller cand sig) s =
      authorizeSigner r s caller cand sig := by
    cases r <;> rfl
  have hnacc : (s.accounts cand).exists_ = false := by
    rcases Bool.eq_false_or_eq_true (s.accounts cand).exists_ with hb | hb
    · exact absurd ((inv_of_reachable h).disjoint cand hb) hcl
    · exact hb
  have hacct' : (s.accounts caller).exists_ = true := hacct
  have hmain : authorizeSigner r s caller cand sig =
      .error .candidateAlreadyClaimed := by
    simp [authorizeSigner, authorize, isNotAccount, isAccount, isAuthorized,
      hacct', hnacc, hcl]
  refine ⟨hdispatch.trans hmain, ?_⟩
  unfold run
  rw [hdispatch, hmain]

theorem c4_claimed_candidate_rejected_witness :
    exec (signerOp .validating 1 2 ⟨1, 2⟩) st2 =
      .error .candidateAlreadyClaimed ∧
    run (signerOp .validating 1 2 ⟨1, 2⟩) st2 = st2 :=
  @c4_claimed_candidate_rejected st2 reachable_st2 1 2 rfl (by decide)
    Role.validating ⟨1, 2⟩

/-- C5: if, in a reachable state, role `r` of account `sender` holds
delegate `c1`, and re-authorizing role `r` to a new candidate `c2`
succeeds, then `c1` is released in the same step: a subsequent
`createAccount` by `c1` succeeds, and a subsequent authorization of `c1`
(for any role) by any existing account `other` with a valid signature
succeeds. -/
theorem c5_release_on_replace {s s' : AccountsState} (h : Reachable s)
    {r r' : Role} {sender c1 c2 other : Addr} {sig sig' : Sig}
    (hslot : (s.accounts sender).signers.get r = c1) (hc1 : c1 ≠ 0)
    (hok : authorizeSigner r s sender c2 sig = .ok s')
    (hother : (s'.accounts other).exists_ = true)
    (hsig' : recoverSigner other sig' = some c1) :
    (∃ t, createAccount s' c1 = .ok t) ∧
    ∃ t, authorizeSigner r' s' other c1 sig' = .ok t := by
  have hi := inv_of_reachable h
  obtain ⟨hex, hcx2, hcb2, -, -, hc20, hs'⟩ := authorizeSigner_ok hok
  have hs0 : sender ≠ 0 := by
    intro hz; rw [hz, hi.no_zero_account] at hex; cases hex
  have hclaim : s.authorizedBy c1 = sender := by
    have hc := hi.slot_claimed sender r hex (by rw [hslot]; exact hc1)
    rw [hslot] at hc; exact hc
  have hc1acc : (s.accounts c1).exists_ = false := by
    rcases Bool.eq_false_or_eq_true (s.accounts c1).exists_ with hb | hb
    · have h0 := hi.disjoint c1 hb
      rw [hclaim] at h0
      exact absurd h0 hs0
    · exact hb
  have hc12 : c1 ≠ c2 := by
    intro hz; rw [hz, hcb2] at hclaim; exact hs0 hclaim.symm
  have hc1s : c1 ≠ sender := by
    intro hz
    have hd := hi.disjoint sender hex
    rw [← hz, hclaim] at hd
    exact hs0 hd
  have hexs' : (s'.accounts c1).exists_ = false := by
    rw [hs']; simp only; rw [if_neg hc1s]; exact hc1acc
  have hab' : s'.authorizedBy c1 = 0 := by
    rw [hs']; simp only; rw [if_neg hc12, if_pos hslot.symm]
  exact ⟨createAccount_succeeds hexs' hab',
    authorizeSigner_succeeds hother hexs' hab' hsig'⟩

theorem c5_release_on_replace_witness :
    (∃ t, createAccount st3 2 = .ok t) ∧
    ∃ t, authorizeSigner .validating st3 1 2 ⟨1, 2⟩ = .ok t :=
  @c5_release_on_replace st2 st3 reachable_st2 Role.voting Role.validating
    1 2 3 1 ⟨1, 3⟩ ⟨1, 2⟩ rfl (by decide) rfl rfl rfl

/-- C6 is false as stated: the attestation authorization entry point
does not carry the `nonReentrant` modifier in the source (lines
158-170), unlike the voting and validating entry points. -/
theorem c6_attestation_entry_unguarded :
    hasNonReentrantGuard EntryPoint.attestationSigner = false := rfl

/-- C6 (amended): of the three mutating authorization entry points, the
voting and validating ones carry an explicit `nonReentrant` guard; the
attestation one does not. -/
theorem c6_guard_table :
    hasNonReentrantGuard EntryPoint.voteSigner = true ∧
    hasNonReentrantGuard EntryPoint.validationSigner = true ∧
    hasNonReentrantGuard EntryPoint.attestationSigner = false :=
  ⟨rfl, rfl, rfl⟩

/-- C7: for every registered account `i` whose slot for role `r` is
empty (zero), the identity-to-delegate resolver for `r` returns `i`
itself (self-default); for every unregistered address `a`, it fails with
`UnknownIdentity`. -/
theorem c7_self_default_and_unknown (s : AccountsState) (r : Role)
    {i a : Addr} (hi : (s.accounts i).exists_ = true)
    (hslot : (s.accounts i).signers.get r = 0)
    (ha : (s.accounts a).exists_ = false) :
    getSignerFromAccount r s i = .ok i ∧
    getSignerFromAccount r s a = .error .unknownIdentity := by
  constructor
  · simp [getSignerFromAccount, isAccount, hi, hslot]
  · simp [getSignerFromAccount, isAccount, ha]

theorem c7_self_default_and_unknown_witness :
    getSignerFromAccount .attesting st1 1 = .ok 1 ∧
    getSignerFromAccount .attesting st1 5 = .error .unknownIdentity :=
  @c7_self_default_and_unknown st1 Role.attesting 1 5 rfl rfl rfl

/-- C8 is false as stated: the data encryption key setter is not an
unconditional key/value setter; it rejects any key shorter than 33
bytes, e.g. the empty key from any caller in the initial state. -/
theorem c8_short_key_rejected :
    setAccountDataEncryptionKey initState 1 [] =
      .error .invalidDataEncryptionKey := rfl

/-- C8 (amended): the wallet address and metadata URL setters succeed
for every caller and every value and store the value unmodified; the
data encryption key setter stores the value unmodified when its length
is at least 33 and otherwise fails (its sole validation), leaving no
other failure conditions among the profile setters. -/
theorem c8_profile_setters (s : AccountsState) (sender w : Addr)
    (url : String) (key : List Nat) :
    (∃ t, setWalletAddress s sender w = .ok t ∧
      (t.accounts sender).walletAddress = w) ∧
    (∃ t, setMetadataURL s sender url = .ok t ∧
      (t.accounts sender).metadataURL = url) ∧
    (33 ≤ key.length →
      ∃ t, setAccountDataEncryptionKey s sender key = .ok t ∧
        (t.accounts sender).dataEncryptionKey = key) ∧
    (key.length < 33 →
      setAccountDataEncryptionKey s sender key =
        .error .invalidDataEncryptionKey) := by
  refine ⟨⟨_, rfl, by simp⟩, ⟨_, rfl, by simp⟩, ?_, ?_⟩
  · intro hlen
    refine ⟨{ s with accounts := fun a =>
        if a = sender then
          { s.accounts sender with dataEncryptionKey := key }
        else s.accounts a }, ?_, ?_⟩
    · unfold setAccountDataEncryptionKey
      rw [if_pos hlen]
    · simp
  · intro hlen
    unfold setAccountDataEncryptionKey
    rw [if_neg (Nat.not_le.mpr hlen)]

theorem c8_profile_setters_witness :
    (∃ t, setWalletAddress initState 1 7 = .ok t ∧
      (t.accounts 1).walletAddress = 7) ∧
    (∃ t, setMetadataURL initState 1 "u" = .ok t ∧
      (t.accounts 1).metadataURL = "u") ∧
    (33 ≤ (List.replicate 33 0).length →
      ∃ t, setAccountDataEncryptionKey initState 1 (List.replicate 33 0) = .ok t ∧
        (t.accounts 1).dataEncryptionKey = List.replicate 33 0) ∧
    ((List.replicate 33 0).length < 33 →
      setAccountDataEncryptionKey initState 1 (List.replicate 33 0) =
        .error .invalidDataEncryptionKey) :=
  c8_profile_setters initState 1 7 "u" (List.replicate 33 0)

/-- C9: in every reachable state, if role `r` of account `i` currently
holds delegate `c`, re-submitting the authorization of `c` for that very
slot fails with `CandidateAlreadyClaimed` regardless of the signature:
the global already-claimed check also rejects the caller's own incumbent
delegate, so there is no idempotent refresh. -/
theorem c9_incumbent_resubmission_fails {s : AccountsState} (h : Reachable s)
    {i c : Addr} {r : Role} (hia : (s.accounts i).exists_ = true)
    (hslot : (s.accounts i).signers.get r = c) (hc : c ≠ 0) (sig : Sig) :
    authorizeSigner r s i c sig = .error .candidateAlreadyClaimed := by
  have hinv := inv_of_reachable h
  have hi0 : i ≠ 0 := by
    intro hz; rw [hz, hinv.no_zero_account] at hia; cases hia
  have hclaim : s.authorizedBy c = i := by
    have hcl := hinv.slot_claimed i r hia (by rw [hslot]; exact hc)
    rw [hslot] at hcl; exact hcl
  have hcacc : (s.accounts c).exists_ = false := by
    rcases Bool.eq_false_or_eq_true (s.accounts c).exists_ with hb | hb
    · have h0 := hinv.disjoint c hb
      rw [hclaim] at h0
      exact absurd h0 hi0
    · exact hb
  simp [authorizeSigner, authorize, isNotAccount, isAccount, isAuthorized,
    hia, hcacc, hclaim, hi0]

theorem c9_incumbent_resubmission_fails_witness :
    authorizeSigner .voting st2 1 2 ⟨1, 2⟩ =
      .error .candidateAlreadyClaimed :=
  @c9_incumbent_resubmission_fails st2 reachable_st2 1 2 Role.voting
    rfl rfl (by decide) ⟨1, 2⟩

/-- C10: a successful authorization of candidate `cand` for role `r` by
`sender` changes exactly: `sender`'s slot for `r` (to `cand`), the
`authorizedBy` entry of the previous delegate (cleared), and the
`authorizedBy` entry of `cand` (set to `sender`).  Every other account
record, all of `sender`'s other fields and other role slots, and every
other `authorizedBy` entry are unchanged. -/
theorem c10_authorize_frame {r : Role} {s s' : AccountsState}
    {sender cand : Addr} {sig : Sig}
    (hok : authorizeSigner r s sender cand sig = .ok s') :
    (∀ a, a ≠ sender → s'.accounts a = s.accounts a) ∧
    (s'.accounts sender).exists_ = (s.accounts sender).exists_ ∧
    (s'.accounts sender).walletAddress = (s.accounts sender).walletAddress ∧
    (s'.accounts sender).dataEncryptionKey =
      (s.accounts sender).dataEncryptionKey ∧
    (s'.accounts sender).metadataURL = (s.accounts sender).metadataURL ∧
    (s'.accounts sender).signers.get r = cand ∧
    (∀ r', r' ≠ r → (s'.accounts sender).signers.get r' =
      (s.accounts sender).signers.get r') ∧
    s'.authorizedBy cand = sender ∧
    (∀ x, x ≠ cand → x ≠ (s.accounts sender).signers.get r →
      s'.authorizedBy x = s.authorizedBy x) ∧
    ((s.accounts sender).signers.get r ≠ cand →
      s'.authorizedBy ((s.accounts sender).signers.get r) = 0) := by
  obtain ⟨-, -, -, -, -, -, hs'⟩ := authorizeSigner_ok hok
  subst hs'
  refine ⟨?_, ?_, ?_, ?_, ?_, ?_, ?_, ?_, ?_, ?_⟩
  · intro a ha; simp only; rw [if_neg ha]
  · simp
  · simp
  · simp
  · simp
  · simp [Signers.get_set_self]
  · intro r' hr'; simp [Signers.get_set_of_ne _ hr']
  · simp
  · intro x h1 h2; simp only; rw [if_neg h1, if_neg h2]
  · intro hne; simp [hne]

theorem c10_authorize_frame_witness :
    (st2.accounts 7 = st1.accounts 7) ∧
    (st2.accounts 1).walletAddress = (st1.accounts 1).walletAddress ∧
    (st2.accounts 1).signers.get .voting = 2 ∧
    (st2.accounts 1).signers.get .attesting =
      (st1.accounts 1).signers.get .attesting ∧
    st2.authorizedBy 2 = 1 ∧
    st2.authorizedBy 9 = st1.authorizedBy 9 := by
  have hmain := @c10_authorize_frame Role.voting st1 st2 1 2 ⟨1, 2⟩ rfl
  obtain ⟨hacc, -, hw, -, -, hslot, hother, hab, hframe, -⟩ := hmain
  exact ⟨hacc 7 (by decide), hw, hslot,
    hother .attesting (by decide), hab, hframe 9 (by decide) (by decide)⟩

end Accounts
